import Mathlib

/-!
Verification of the world-clock widget (`src/script.js`): a shallow
embedding of its state machine, catalog and string helpers, with theorems
checking the natural-language specification's claims against the code.

Strings are modelled as Lean `String` (a wrapper around `List Char`);
JavaScript regex-based replacements are embedded as explicit character-list
transformations.
-/

namespace WorldClock

/-- The character class `[A-Za-z0-9-_]` of the JS regex in `sanitizeTestId`,
written out as the explicit finite set of characters it matches. -/
def allowedChars : List Char :=
  "ABCDEFGHIJKLMNOPQRSTUVWXYZabcdefghijklmnopqrstuvwxyz0123456789-_".data

def charAllowed (c : Char) : Bool := allowedChars.contains c

/-- The characters matched by the JS regex class `\s` (ECMAScript WhiteSpace
and LineTerminator productions). -/
def wsChars : List Char :=
  [' ', '\t', '\n', '\x0b', '\x0c', '\r',
   '\u00A0', '\u1680',
   '\u2000', '\u2001', '\u2002', '\u2003', '\u2004', '\u2005',
   '\u2006', '\u2007', '\u2008', '\u2009', '\u200A',
   '\u2028', '\u2029', '\u202F', '\u205F', '\u3000', '\uFEFF']

def isJsWs (c : Char) : Bool := wsChars.contains c

/-- `String.prototype.toLowerCase` restricted to the characters that can
reach it in `sanitizeTestId` (ASCII after the `[^A-Za-z0-9-_]` strip):
uppercase ASCII letters map to lowercase, everything else is fixed. -/
def jsToLower (c : Char) : Char :=
  if 'A' ≤ c ∧ c ≤ 'Z' then Char.ofNat (c.toNat + 32) else c

/-- `replace(/\//g, '-')` on a single character. -/
def slashToDash (c : Char) : Char := if c = '/' then '-' else c

/-- `replace(/\s+/g, '-')`: each maximal run of whitespace characters is
replaced by a single `'-'`. -/
def collapseWs : List Char → List Char
  | [] => []
  | [c] => if isJsWs c then ['-'] else [c]
  | c :: d :: cs =>
    if isJsWs c then
      if isJsWs d then collapseWs (d :: cs)
      else '-' :: collapseWs (d :: cs)
    else c :: collapseWs (d :: cs)

/-- `sanitizeTestId` from `src/script.js`:
`tz.replace(/\//g, '-').replace(/\s+/g, '-').replace(/[^A-Za-z0-9-_]/g, '').toLowerCase()`. -/
def sanitizeTestId (tz : String) : String :=
  String.mk (((collapseWs (tz.data.map slashToDash)).filter charAllowed).map jsToLower)

/-- `replace(/_/g, ' ')` on a single character. -/
def underscoreToSpace (c : Char) : Char := if c = '_' then ' ' else c

/-- `tz.split('/').pop()`: the final segment of the string after its last
`'/'` (the whole string when no `'/'` occurs, empty when it ends in `'/'`). -/
def lastSegment (l : List Char) : List Char :=
  (l.reverse.takeWhile (fun c => c ≠ '/')).reverse

/-- `prettyLabelFromTimezone` from `src/script.js`:
`const part = tz.split('/').pop(); return part ? part.replace(/_/g,' ') : tz;`. -/
def prettyLabelFromTimezone (tz : String) : String :=
  if (lastSegment tz.data).isEmpty then tz
  else String.mk ((lastSegment tz.data).map underscoreToSpace)

/-- The hardcoded fallback list of `getAllTimeZones` in `src/script.js`. -/
def fallbackTimeZones : List String :=
  ["Pacific/Auckland", "Australia/Brisbane", "Asia/Tokyo", "Asia/Kolkata",
   "Europe/London", "Europe/Paris", "Europe/Berlin", "America/New_York",
   "America/Los_Angeles", "America/Chicago", "America/Denver", "UTC"]

/-- The outcome of probing `Intl.supportedValuesOf('timeZone')`:
`none` means the capability is absent (`typeof` test fails),
`some (.error e)` means it threw (caught by the empty `catch`),
`some (.ok l)` means it returned the list `l`. -/
abbrev PlatformEnum : Type := Option (Except String (List String))

/-- `getAllTimeZones` from `src/script.js`: return the platform enumeration
when available and not throwing, otherwise the hardcoded fallback list. -/
def getAllTimeZones : PlatformEnum → List String
  | some (Except.ok l) => l
  | some (Except.error _) => fallbackTimeZones
  | none => fallbackTimeZones

/-- The `{ time, date }` record returned by `formatForTimezone`. -/
structure DisplayStrings where
  time : String
  date : String
deriving DecidableEq

/-- Proleptic-Gregorian civil date from a count of days since 1970-01-01
(the date arithmetic underlying the platform's formatting of a timestamp). -/
def civilFromDays (z : Int) : Int × Int × Int :=
  let z' := z + 719468
  let era := z'.ediv 146097
  let doe := z'.emod 146097
  let yoe := (doe - doe.ediv 1460 + doe.ediv 36524 - doe.ediv 146096).ediv 365
  let doy := doe - (365 * yoe + yoe.ediv 4 - yoe.ediv 100)
  let mp := (5 * doy + 2).ediv 153
  let d := doy - (153 * mp + 2).ediv 5 + 1
  let m := if mp < 10 then mp + 3 else mp - 9
  (yoe + era * 400 + (if m ≤ 2 then 1 else 0), m, d)

def monthAbbrev : Int → String
  | 1 => "Jan" | 2 => "Feb" | 3 => "Mar" | 4 => "Apr" | 5 => "May" | 6 => "Jun"
  | 7 => "Jul" | 8 => "Aug" | 9 => "Sep" | 10 => "Oct" | 11 => "Nov" | 12 => "Dec"
  | _ => "???"

def pad2 (n : Int) : String :=
  if n < 10 then "0" ++ toString n else toString n

/-- Modelled from the spec: the platform time capability consumed by
`formatForTimezone` (`Intl.DateTimeFormat` with `timeZone`, which is not part
of this repository). An offset database `off` maps a timezone identifier to the
zone's offset from UTC in seconds; a timestamp truncated to whole seconds
(`Intl` renders seconds at `'2-digit'`, so sub-second detail never shows) is
rendered as 24-hour `HH:MM:SS` and an abbreviated `Mon D, YYYY` date. -/
def epochFormat (off : String → Int) (tz : String) (secs : Nat) : DisplayStrings :=
  let total : Int := Int.ofNat secs + off tz
  let sod := total.emod 86400
  let days := total.ediv 86400
  let h := sod.ediv 3600
  let mi := (sod.emod 3600).ediv 60
  let s := sod.emod 60
  let ymd := civilFromDays days
  { time := pad2 h ++ ":" ++ pad2 mi ++ ":" ++ pad2 s,
    date := monthAbbrev ymd.2.1 ++ " " ++ toString ymd.2.2 ++ ", " ++ toString ymd.1 }

/-- `formatForTimezone` from `src/script.js`: formats `new Date()` (the ambient
instant, here an explicit `nowMs` in milliseconds since the epoch) in the given
timezone; the platform formatter only sees the instant at one-second
resolution. -/
def formatForTimezone (off : String → Int) (tz : String) (nowMs : Nat) : DisplayStrings :=
  epochFormat off tz (nowMs / 1000)

/-- A top-row `.city` button from the static HTML: its (optional)
`data-timezone` attribute, its `active` class and its `aria-pressed` flag. -/
structure CoreButton where
  timezone : Option String
  active : Bool
  ariaPressed : Bool
deriving DecidableEq

/-- A `.tz-btn` control built by `buildTimezoneBar`: its `data-timezone`,
`data-testid`, label text and `active` class. -/
structure TzButton where
  timezone : String
  testid : String
  label : String
  active : Bool
deriving DecidableEq

/-- The mutable state of the page: the `selectedTimezone` variable plus the
DOM nodes the script writes to. -/
structure AppState where
  selectedTimezone : String
  cityName : String
  clockText : String
  dateText : String
  coreCityButtons : List CoreButton
  tzButtons : List TzButton
deriving DecidableEq

/-- `updateClock` from `src/script.js`: write the formatted time and date of
`selectedTimezone` at the ambient instant into the clock and date slots. -/
def updateClock (off : String → Int) (nowMs : Nat) (s : AppState) : AppState :=
  let fd := formatForTimezone off s.selectedTimezone nowMs
  { s with clockText := fd.time, dateText := fd.date }

/-- The per-button body of `updateActiveStates` for a core `.city` button. -/
def setCoreActive (sel : String) (b : CoreButton) : CoreButton :=
  if b.timezone = some sel then { b with active := true, ariaPressed := true }
  else { b with active := false, ariaPressed := false }

/-- The per-button body of `updateActiveStates` for a `.tz-btn` control. -/
def setTzActive (sel : String) (b : TzButton) : TzButton :=
  if b.timezone = sel then { b with active := true } else { b with active := false }

/-- `updateActiveStates` from `src/script.js`: mark each control active exactly
when its `data-timezone` equals `selectedTimezone`. -/
def updateActiveStates (s : AppState) : AppState :=
  { s with
    coreCityButtons := s.coreCityButtons.map (setCoreActive s.selectedTimezone),
    tzButtons := s.tzButtons.map (setTzActive s.selectedTimezone) }

/-- `updateCityName` from `src/script.js`. -/
def updateCityName (s : AppState) : AppState :=
  { s with cityName := prettyLabelFromTimezone s.selectedTimezone }

/-- `selectTimezone` from `src/script.js`: set the state, then update the city
name, the active markings, and the clock. -/
def selectTimezone (off : String → Int) (nowMs : Nat) (tz : String) (s : AppState) : AppState :=
  updateClock off nowMs (updateActiveStates (updateCityName { s with selectedTimezone := tz }))

/-- The button `buildTimezoneBar` creates for one catalog entry. -/
def mkTzButton (tz : String) : TzButton :=
  { timezone := tz, testid := sanitizeTestId tz,
    label := prettyLabelFromTimezone tz, active := false }

/-- `buildTimezoneBar` from `src/script.js`: clear the bar and append one
button per catalog entry. -/
def buildTimezoneBar (p : PlatformEnum) (s : AppState) : AppState :=
  { s with tzButtons := (getAllTimeZones p).map mkTzButton }

/-- The page state at script start: `selectedTimezone = 'Australia/Brisbane'`
(the default on line 8), the core `.city` buttons from the static HTML, and
empty output slots. -/
def initialState (core : List CoreButton) : AppState :=
  { selectedTimezone := "Australia/Brisbane", cityName := "", clockText := "",
    dateText := "", coreCityButtons := core, tzButtons := [] }

/-- `init` from `src/script.js`: build the bar, wire the buttons, then run the
first render (`updateCityName`, `updateActiveStates`, `updateClock`).
Event wiring (`initCoreButtons` and the per-button click listeners) is
captured by the `step` relation below. -/
def init (off : String → Int) (p : PlatformEnum) (core : List CoreButton) (nowMs : Nat) :
    AppState :=
  updateClock off nowMs (updateActiveStates (updateCityName
    (buildTimezoneBar p (initialState core))))

/-- The entry points of the event loop: clicking the `i`-th timezone-bar
button, clicking the `i`-th core city button, or a `setInterval` tick; each
carries the ambient instant at which it runs. -/
inductive Event where
  | clickTz (i : Nat) (nowMs : Nat)
  | clickCore (i : Nat) (nowMs : Nat)
  | tick (nowMs : Nat)

/-- The body of the listener `initCoreButtons` attaches to a core `.city`
button: `const tz = btn.dataset.timezone; if(tz) selectTimezone(tz);`. -/
def coreButtonClick (off : String → Int) (nowMs : Nat) (tzOpt : Option String)
    (s : AppState) : AppState :=
  match tzOpt with
  | some tz => selectTimezone off nowMs tz s
  | none => s

/-- One turn of the event loop, as wired by `buildTimezoneBar`,
`initCoreButtons` and `setInterval(updateClock, 1000)`: a bar button's
listener calls `selectTimezone` with the captured timezone; a core button's
listener calls it only when `data-timezone` is present; a tick runs
`updateClock`. -/
def step (off : String → Int) (s : AppState) : Event → AppState
  | Event.clickTz i nowMs =>
    match s.tzButtons.get? i with
    | some b => selectTimezone off nowMs b.timezone s
    | none => s
  | Event.clickCore i nowMs =>
    match s.coreCityButtons.get? i with
    | some b => coreButtonClick off nowMs b.timezone s
    | none => s
  | Event.tick nowMs => updateClock off nowMs s

/-! ### Helper lemmas on characters and lists -/

/-- The characters that can occur in the output of `sanitizeTestId`. -/
def outChars : List Char := "abcdefghijklmnopqrstuvwxyz0123456789-_".data

lemma allowed_maps_to_out :
    allowedChars.all (fun d => outChars.contains (jsToLower d)) = true := by decide

lemma out_no_ws : ∀ c ∈ outChars, isJsWs c = false := by decide

lemma out_slash_fix : ∀ c ∈ outChars, slashToDash c = c := by decide

lemma out_no_slash : ∀ c ∈ outChars, c ≠ '/' := by decide

lemma out_allowed : ∀ c ∈ outChars, charAllowed c = true := by decide

lemma out_lower_fixed : ∀ c ∈ outChars, jsToLower c = c := by decide

lemma out_ranges : ∀ c ∈ outChars,
    ('a' ≤ c ∧ c ≤ 'z') ∨ ('0' ≤ c ∧ c ≤ '9') ∨ c = '-' ∨ c = '_' := by decide

lemma map_fix (f : Char → Char) (l : List Char) (h : ∀ c ∈ l, f c = c) :
    l.map f = l :=
  (List.map_congr_left h).trans (List.map_id l)

lemma collapseWs_no_ws : ∀ (l : List Char), (∀ c ∈ l, isJsWs c = false) → collapseWs l = l
  | [], _ => rfl
  | [c], h => by simp [collapseWs, h c (List.mem_singleton.2 rfl)]
  | c :: d :: cs, h => by
    have hc := h c (List.mem_cons_self c (d :: cs))
    have ih := collapseWs_no_ws (d :: cs) (fun e he => h e (List.mem_cons_of_mem c he))
    simp [collapseWs, hc, ih]

lemma sanitize_data (s : String) :
    (sanitizeTestId s).data =
      ((collapseWs (s.data.map slashToDash)).filter charAllowed).map jsToLower := rfl

lemma mem_sanitize_out (s : String) : ∀ c ∈ (sanitizeTestId s).data, c ∈ outChars := by
  intro c hc
  rw [sanitize_data] at hc
  obtain ⟨d, hd, rfl⟩ := List.mem_map.1 hc
  have hall : charAllowed d = true := (List.mem_filter.1 hd).2
  have hdmem : d ∈ allowedChars := by simpa [charAllowed] using hall
  have h1 := (List.all_eq_true.1 allowed_maps_to_out) d hdmem
  simpa using h1

lemma takeWhile_all (p : Char → Bool) :
    ∀ (l : List Char), (∀ c ∈ l, p c = true) → l.takeWhile p = l
  | [], _ => rfl
  | c :: cs, h => by
    have hc := h c (List.mem_cons_self c cs)
    have ih := takeWhile_all p cs (fun d hd => h d (List.mem_cons_of_mem c hd))
    simp [List.takeWhile_cons, hc, ih]

lemma takeWhile_append_all (p : Char → Bool) :
    ∀ (l r : List Char), (∀ c ∈ l, p c = true) →
      (l ++ r).takeWhile p = l ++ r.takeWhile p
  | [], _, _ => rfl
  | c :: cs, r, h => by
    have hc := h c (List.mem_cons_self c cs)
    have ih := takeWhile_append_all p cs r (fun d hd => h d (List.mem_cons_of_mem c hd))
    simp [List.takeWhile_cons, hc, ih]

lemma lastSegment_no_slash (l : List Char) (h : '/' ∉ l) : lastSegment l = l := by
  unfold lastSegment
  rw [takeWhile_all _ l.reverse ?_, List.reverse_reverse]
  intro c hc
  exact decide_eq_true (fun he => h (he ▸ List.mem_reverse.1 hc))

lemma pretty_no_slash (l : List Char) (h : '/' ∉ l) :
    prettyLabelFromTimezone (String.mk l) = String.mk (l.map underscoreToSpace) := by
  unfold prettyLabelFromTimezone
  rw [show (String.mk l).data = l from rfl, lastSegment_no_slash l h]
  cases l with
  | nil => rfl
  | cons c cs => rfl

lemma pretty_append_slash (a b : String) (hb : '/' ∉ b.data) (hne : b.data ≠ []) :
    prettyLabelFromTimezone (a ++ "/" ++ b) = String.mk (b.data.map underscoreToSpace) := by
  have hdata : (a ++ "/" ++ b).data = a.data ++ '/' :: b.data := by
    rw [String.data_append, String.data_append]
    simp [show ("/" : String).data = ['/'] from rfl]
  have hseg : lastSegment (a ++ "/" ++ b).data = b.data := by
    rw [hdata]
    unfold lastSegment
    have hall : ∀ c ∈ b.data.reverse, (fun c => decide (c ≠ '/')) c = true := by
      intro c hc
      exact decide_eq_true (fun he => hb (he ▸ List.mem_reverse.1 hc))
    rw [List.reverse_append, List.reverse_cons, List.append_assoc,
      takeWhile_append_all _ _ _ hall]
    simp [List.takeWhile_cons]
  unfold prettyLabelFromTimezone
  rw [hseg]
  cases hx : b.data with
  | nil => exact absurd hx hne
  | cons c cs => simp [hx]

/-! ### Helper lemmas on the state machine -/

lemma selectTimezone_eq (off : String → Int) (nowMs : Nat) (tz : String) (s : AppState) :
    selectTimezone off nowMs tz s =
      { selectedTimezone := tz,
        cityName := prettyLabelFromTimezone tz,
        clockText := (formatForTimezone off tz nowMs).time,
        dateText := (formatForTimezone off tz nowMs).date,
        coreCityButtons := s.coreCityButtons.map (setCoreActive tz),
        tzButtons := s.tzButtons.map (setTzActive tz) } := rfl

lemma init_eq (off : String → Int) (p : PlatformEnum) (core : List CoreButton) (nowMs : Nat) :
    init off p core nowMs =
      { selectedTimezone := "Australia/Brisbane",
        cityName := prettyLabelFromTimezone "Australia/Brisbane",
        clockText := (formatForTimezone off "Australia/Brisbane" nowMs).time,
        dateText := (formatForTimezone off "Australia/Brisbane" nowMs).date,
        coreCityButtons := core.map (setCoreActive "Australia/Brisbane"),
        tzButtons := ((getAllTimeZones p).map mkTzButton).map
          (setTzActive "Australia/Brisbane") } := rfl

lemma setTzActive_timezone (sel : String) (b : TzButton) :
    (setTzActive sel b).timezone = b.timezone := by
  unfold setTzActive; split <;> rfl

lemma setCoreActive_timezone (sel : String) (b : CoreButton) :
    (setCoreActive sel b).timezone = b.timezone := by
  unfold setCoreActive; split <;> rfl

lemma setTzActive_idem (t : String) (b : TzButton) :
    setTzActive t (setTzActive t b) = setTzActive t b := by
  by_cases h : b.timezone = t <;> simp [setTzActive, h]

lemma setCoreActive_idem (t : String) (b : CoreButton) :
    setCoreActive t (setCoreActive t b) = setCoreActive t b := by
  by_cases h : b.timezone = some t <;> simp [setCoreActive, h]

lemma map_setTz_idem (t : String) (l : List TzButton) :
    (l.map (setTzActive t)).map (setTzActive t) = l.map (setTzActive t) := by
  rw [List.map_map]
  exact List.map_congr_left (fun b _ => setTzActive_idem t b)

lemma map_setCore_idem (t : String) (l : List CoreButton) :
    (l.map (setCoreActive t)).map (setCoreActive t) = l.map (setCoreActive t) := by
  rw [List.map_map]
  exact List.map_congr_left (fun b _ => setCoreActive_idem t b)

lemma filter_active_tz (t : String) : ∀ (l : List TzButton),
    ((l.map (setTzActive t)).filter (fun b => b.active)).length
      = (l.map (fun b => b.timezone)).count t
  | [] => rfl
  | b :: bs => by
    by_cases h : b.timezone = t <;>
      simp [setTzActive, h, filter_active_tz t bs, List.count_cons]

lemma filter_active_core (t : String) (l : List CoreButton)
    (h : ∀ b ∈ l, b.timezone ≠ some t) :
    (l.map (setCoreActive t)).filter (fun b => b.active) = [] := by
  induction l with
  | nil => rfl
  | cons b bs ih =>
    have hb := h b (List.mem_cons_self b bs)
    simp [setCoreActive, hb, ih (fun e he => h e (List.mem_cons_of_mem b he))]

lemma active_tz_eq (t : String) (l : List TzButton) :
    ∀ b ∈ l.map (setTzActive t), b.active = true → b.timezone = t := by
  intro b hb hact
  obtain ⟨a, _, rfl⟩ := List.mem_map.1 hb
  by_cases h : a.timezone = t
  · rw [setTzActive_timezone]; exact h
  · simp [setTzActive, h] at hact

lemma active_core_eq (t : String) (l : List CoreButton) :
    ∀ b ∈ l.map (setCoreActive t), b.active = true → b.timezone = some t := by
  intro b hb hact
  obtain ⟨a, _, rfl⟩ := List.mem_map.1 hb
  by_cases h : a.timezone = some t
  · rw [setCoreActive_timezone]; exact h
  · simp [setCoreActive, h] at hact

lemma inactive_tz (t : String) (l : List TzButton) :
    ∀ b ∈ l.map (setTzActive t), b.timezone ≠ t → b.active = false := by
  intro b hb hne
  obtain ⟨a, _, rfl⟩ := List.mem_map.1 hb
  by_cases h : a.timezone = t
  · exact absurd (by rw [setTzActive_timezone]; exact h) hne
  · simp [setTzActive, h]

/-- The reachability invariant for C2: the selected timezone and every
control's timezone tag lie in the startup catalog. -/
def Inv (zones : List String) (s : AppState) : Prop :=
  s.selectedTimezone ∈ zones
  ∧ (∀ b ∈ s.tzButtons, b.timezone ∈ zones)
  ∧ (∀ b ∈ s.coreCityButtons, ∀ tz, b.timezone = some tz → tz ∈ zones)

lemma inv_select (off : String → Int) (zones : List String) (nowMs : Nat) (tz : String)
    (s : AppState) (h : Inv zones s) (htz : tz ∈ zones) :
    Inv zones (selectTimezone off nowMs tz s) := by
  rw [selectTimezone_eq]
  refine ⟨htz, ?_, ?_⟩
  · intro b hb
    obtain ⟨a, ha, rfl⟩ := List.mem_map.1 hb
    rw [setTzActive_timezone]
    exact h.2.1 a ha
  · intro b hb tz' htz'
    obtain ⟨a, ha, rfl⟩ := List.mem_map.1 hb
    rw [setCoreActive_timezone] at htz'
    exact h.2.2 a ha tz' htz'

lemma inv_step (off : String → Int) (zones : List String) (s : AppState) (e : Event)
    (h : Inv zones s) : Inv zones (step off s e) := by
  cases e with
  | clickTz i nowMs =>
    simp only [step]
    cases hg : s.tzButtons.get? i with
    | none => exact h
    | some b => exact inv_select off zones nowMs b.timezone s h (h.2.1 b (List.get?_mem hg))
  | clickCore i nowMs =>
    simp only [step]
    cases hg : s.coreCityButtons.get? i with
    | none => exact h
    | some b =>
      show Inv zones (coreButtonClick off nowMs b.timezone s)
      cases hb : b.timezone with
      | none => exact h
      | some tz =>
        exact inv_select off zones nowMs tz s h (h.2.2 b (List.get?_mem hg) tz hb)
  | tick nowMs => exact h

/-! ### Claims -/

/-- C4: `listTimezones()` never fails and always returns a non-empty,
duplicate-free ordered sequence (given that the platform enumeration, when it
succeeds, reports a non-empty duplicate-free list, as the trusted platform
does); when the capability is unavailable or throws it silently returns the
hardcoded static fallback list, which is non-empty, duplicate-free and
contains `"UTC"`. -/
theorem getAllTimeZones_spec (p : PlatformEnum)
    (hp : ∀ l, p = some (Except.ok l) → l ≠ [] ∧ l.Nodup) :
    (getAllTimeZones p ≠ [] ∧ (getAllTimeZones p).Nodup)
    ∧ getAllTimeZones none = fallbackTimeZones
    ∧ (∀ e, getAllTimeZones (some (Except.error e)) = fallbackTimeZones)
    ∧ fallbackTimeZones ≠ [] ∧ fallbackTimeZones.Nodup
    ∧ "UTC" ∈ fallbackTimeZones := by
  refine ⟨?_, rfl, fun e => rfl, by decide, by decide, by decide⟩
  match p with
  | none => exact ⟨by decide, by decide⟩
  | some (Except.error e) =>
    exact show fallbackTimeZones ≠ [] ∧ fallbackTimeZones.Nodup from ⟨by decide, by decide⟩
  | some (Except.ok l) => exact hp l rfl

/-- Witness for C4 at the concrete input `p = none` (platform capability
absent). -/
theorem getAllTimeZones_spec_witness :
    getAllTimeZones none ≠ [] ∧ (getAllTimeZones none).Nodup
    ∧ "UTC" ∈ getAllTimeZones none := by
  have h := getAllTimeZones_spec none (fun l hl => Option.noConfusion hl)
  exact ⟨h.1.1, h.1.2, h.2.2.2.2.2⟩

/-- C3 counterexample: the clause "if no separator exists it returns the
identifier unchanged" fails on the code: `"New_York"` contains no `'/'`
separator, yet `prettyLabelFromTimezone` still replaces its underscore and
returns `"New York"`, not the identifier unchanged. -/
theorem prettyLabel_unchanged_clause_fails :
    ('/' ∉ "New_York".data)
    ∧ prettyLabelFromTimezone "New_York" ≠ "New_York"
    ∧ prettyLabelFromTimezone "New_York" = "New York" := by decide

/-- C3 (amended): `labelFor` is a total, deterministic pure function: it
returns the final segment after the last `'/'` with underscores replaced by
spaces, and if no separator exists it returns the identifier with underscores
replaced by spaces (hence unchanged when it contains none); in particular the
three cited examples hold. -/
theorem prettyLabelFromTimezone_spec :
    (∀ a b : String, '/' ∉ b.data → b.data ≠ [] →
      prettyLabelFromTimezone (a ++ "/" ++ b) = String.mk (b.data.map underscoreToSpace))
    ∧ (∀ tz : String, '/' ∉ tz.data →
      prettyLabelFromTimezone tz = String.mk (tz.data.map underscoreToSpace))
    ∧ prettyLabelFromTimezone "Australia/Brisbane" = "Brisbane"
    ∧ prettyLabelFromTimezone "America/New_York" = "New York"
    ∧ prettyLabelFromTimezone "UTC" = "UTC" := by
  refine ⟨pretty_append_slash, ?_, by decide, by decide, by decide⟩
  intro tz h
  have := pretty_no_slash tz.data h
  simpa using this

/-- Witness for C3's amended theorem at `a = "America"`, `b = "New_York"`. -/
theorem prettyLabelFromTimezone_spec_witness :
    prettyLabelFromTimezone ("America" ++ "/" ++ "New_York")
      = String.mk ("New_York".data.map underscoreToSpace) :=
  prettyLabelFromTimezone_spec.1 "America" "New_York" (by decide) (by decide)

/-- C10: `labelFor` is total (a Lean function on all of `String`), returns a
non-empty string for every non-empty input, and when the segment after the
last separator is empty (identifier ending in `'/'`) it returns the whole
input unchanged. -/
theorem prettyLabelFromTimezone_total (tz a : String) (h : tz.data ≠ []) :
    (prettyLabelFromTimezone tz).data ≠ []
    ∧ prettyLabelFromTimezone (a ++ "/") = a ++ "/" := by
  constructor
  · unfold prettyLabelFromTimezone
    by_cases hseg : (lastSegment tz.data).isEmpty
    · simpa [hseg] using h
    · rw [if_neg hseg]
      intro hcon
      apply hseg
      have hmap : (lastSegment tz.data).map underscoreToSpace = [] := hcon
      rw [List.map_eq_nil_iff] at hmap
      rw [hmap]
      rfl
  · have hdata : (a ++ "/").data = a.data ++ ['/'] := by
      rw [String.data_append]
    have hseg : lastSegment (a ++ "/").data = [] := by
      rw [hdata]
      unfold lastSegment
      rw [List.reverse_append]
      simp [List.takeWhile_cons]
    unfold prettyLabelFromTimezone
    rw [hseg]
    rfl

/-- Witness for C10 at `tz = "UTC"`, `a = "Australia"`. -/
theorem prettyLabelFromTimezone_total_witness :
    ("UTC" : String).data ≠ []
    ∧ ((prettyLabelFromTimezone "UTC").data ≠ []
      ∧ prettyLabelFromTimezone ("Australia" ++ "/") = "Australia" ++ "/") :=
  ⟨by decide, prettyLabelFromTimezone_total "UTC" "Australia" (by decide)⟩

/-- C8: `stableKeyFor` is a deterministic pure function whose output contains
only lowercase ASCII letters, digits, hyphens and underscores — in particular
no path separators and no whitespace — and
`stableKeyFor("Australia/Brisbane") = "australia-brisbane"`. -/
theorem sanitizeTestId_spec (s : String) :
    (∀ c ∈ (sanitizeTestId s).data,
      ('a' ≤ c ∧ c ≤ 'z') ∨ ('0' ≤ c ∧ c ≤ '9') ∨ c = '-' ∨ c = '_')
    ∧ (∀ c ∈ (sanitizeTestId s).data, isJsWs c = false ∧ c ≠ '/')
    ∧ sanitizeTestId "Australia/Brisbane" = "australia-brisbane" := by
  refine ⟨?_, ?_, by decide⟩
  · intro c hc
    exact out_ranges c (mem_sanitize_out s c hc)
  · intro c hc
    exact ⟨out_no_ws c (mem_sanitize_out s c hc), out_no_slash c (mem_sanitize_out s c hc)⟩

/-- Witness for C8 at `s = "Australia/Brisbane"`, evaluating the per-character
clauses at the first output character `'a'`. -/
theorem sanitizeTestId_spec_witness :
    ('a' ∈ (sanitizeTestId "Australia/Brisbane").data)
    ∧ (('a' ≤ 'a' ∧ 'a' ≤ 'z') ∨ ('0' ≤ 'a' ∧ 'a' ≤ '9') ∨ 'a' = '-' ∨ 'a' = '_') :=
  ⟨by decide, (sanitizeTestId_spec "Australia/Brisbane").1 'a' (by decide)⟩

/-- C9: `stableKeyFor` is idempotent: applying the key function twice gives
the same result as applying it once, for every input string. -/
theorem sanitizeTestId_idem (s : String) :
    sanitizeTestId (sanitizeTestId s) = sanitizeTestId s := by
  have hmem := mem_sanitize_out s
  have h1 : (sanitizeTestId s).data.map slashToDash = (sanitizeTestId s).data :=
    map_fix _ _ (fun c hc => out_slash_fix c (hmem c hc))
  have h2 : collapseWs (sanitizeTestId s).data = (sanitizeTestId s).data :=
    collapseWs_no_ws _ (fun c hc => out_no_ws c (hmem c hc))
  have h3 : (sanitizeTestId s).data.filter charAllowed = (sanitizeTestId s).data :=
    List.filter_eq_self.2 (fun c hc => out_allowed c (hmem c hc))
  have h4 : (sanitizeTestId s).data.map jsToLower = (sanitizeTestId s).data :=
    map_fix _ _ (fun c hc => out_lower_fixed c (hmem c hc))
  calc sanitizeTestId (sanitizeTestId s)
      = String.mk ((((sanitizeTestId s).data.map slashToDash
          |> collapseWs).filter charAllowed).map jsToLower) := rfl
    _ = String.mk ((sanitizeTestId s).data) := by rw [h1, h2, h3, h4]
    _ = sanitizeTestId s := rfl

/-- C1: after `select(t)` for a `t` in the catalog, exactly one control among
all selectable controls is active, its timezone equals `t`, and the active
marking on every other control is cleared (given that the catalog has no
duplicates — true of the fallback and of the trusted platform enumeration —
and that no static core button carries the same timezone tag, since a core
button sharing `t` would also be marked active by `updateActiveStates`). -/
theorem select_active_states (off : String → Int) (p : PlatformEnum) (s : AppState)
    (t : String) (nowMs : Nat)
    (hbar : s.tzButtons.map (fun b => b.timezone) = getAllTimeZones p)
    (hnodup : (getAllTimeZones p).Nodup) (ht : t ∈ getAllTimeZones p)
    (hcore : ∀ b ∈ s.coreCityButtons, b.timezone ≠ some t) :
    (((selectTimezone off nowMs t s).coreCityButtons.filter (fun b => b.active)).length
      + ((selectTimezone off nowMs t s).tzButtons.filter (fun b => b.active)).length = 1)
    ∧ (∀ b ∈ (selectTimezone off nowMs t s).tzButtons, b.active = true → b.timezone = t)
    ∧ (∀ b ∈ (selectTimezone off nowMs t s).coreCityButtons,
        b.active = true → b.timezone = some t)
    ∧ (∀ b ∈ (selectTimezone off nowMs t s).tzButtons,
        b.timezone ≠ t → b.active = false) := by
  simp only [selectTimezone_eq]
  refine ⟨?_, active_tz_eq t s.tzButtons, active_core_eq t s.coreCityButtons,
    inactive_tz t s.tzButtons⟩
  rw [filter_active_core t s.coreCityButtons hcore, filter_active_tz t s.tzButtons, hbar]
  simpa using List.count_eq_one_of_mem hnodup ht

/-- Witness for C1: the state built by `init` with the fallback catalog and no
core buttons, selecting `"UTC"`. -/
theorem select_active_states_witness :
    ((init (fun _ => 0) none [] 0).tzButtons.map (fun b => b.timezone) = getAllTimeZones none
      ∧ (getAllTimeZones none).Nodup ∧ "UTC" ∈ getAllTimeZones none)
    ∧ (((selectTimezone (fun _ => 0) 5 "UTC"
          (init (fun _ => 0) none [] 0)).coreCityButtons.filter (fun b => b.active)).length
        + ((selectTimezone (fun _ => 0) 5 "UTC"
          (init (fun _ => 0) none [] 0)).tzButtons.filter (fun b => b.active)).length = 1) := by
  refine ⟨⟨by decide, by decide, by decide⟩, ?_⟩
  exact (select_active_states (fun _ => 0) none (init (fun _ => 0) none [] 0) "UTC" 5
    (by decide) (by decide) (by decide) (by decide)).1

/-- C2: at every reachable state — the `init` state followed by any sequence
of click and timer events — `currentTimezone` is one of the identifiers the
catalog returned at startup (given that the catalog contains the hardcoded
default `"Australia/Brisbane"`, as the fallback does and the platform
enumeration is trusted to, and that the static core buttons only carry
catalog timezones, selection being otherwise only triggered by
catalog-derived controls). -/
theorem selected_always_in_catalog (off : String → Int) (p : PlatformEnum)
    (core : List CoreButton) (now0 : Nat) (events : List Event)
    (hdef : "Australia/Brisbane" ∈ getAllTimeZones p)
    (hcore : ∀ b ∈ core, ∀ tz, b.timezone = some tz → tz ∈ getAllTimeZones p) :
    (events.foldl (step off) (init off p core now0)).selectedTimezone
      ∈ getAllTimeZones p := by
  have hinit : Inv (getAllTimeZones p) (init off p core now0) := by
    rw [init_eq]
    refine ⟨hdef, ?_, ?_⟩
    · intro b hb
      obtain ⟨a, ha, rfl⟩ := List.mem_map.1 hb
      obtain ⟨tz, htz, rfl⟩ := List.mem_map.1 ha
      rw [setTzActive_timezone]
      exact htz
    · intro b hb tz htz
      obtain ⟨a, ha, rfl⟩ := List.mem_map.1 hb
      rw [setCoreActive_timezone] at htz
      exact hcore a ha tz htz
  have hfold : ∀ (evs : List Event) (st : AppState),
      Inv (getAllTimeZones p) st → Inv (getAllTimeZones p) (evs.foldl (step off) st) := by
    intro evs
    induction evs with
    | nil => intro st hst; exact hst
    | cons e es ih => intro st hst; exact ih _ (inv_step off _ st e hst)
  exact (hfold events _ hinit).1

/-- Witness for C2: fallback catalog, no core buttons, one click on the first
bar button (`"Pacific/Auckland"`). -/
theorem selected_always_in_catalog_witness :
    ("Australia/Brisbane" ∈ getAllTimeZones none)
    ∧ (([Event.clickTz 0 7].foldl (step (fun _ => 0))
        (init (fun _ => 0) none [] 3)).selectedTimezone ∈ getAllTimeZones none) :=
  ⟨by decide, selected_always_in_catalog (fun _ => 0) none [] 3 [Event.clickTz 0 7]
    (by decide) (by intro b hb tz _; exact absurd hb (List.not_mem_nil b))⟩

/-- C5: `select` is idempotent: calling `select(t)` twice in succession (the
second call at any later instant) leaves `currentTimezone = t` and yields a
state identical to the one produced by a single `select(t)` call at that
instant — same city label, same active-control set, same time and date
strings. -/
theorem selectTimezone_idem (off : String → Int) (t : String) (n1 n2 : Nat)
    (s : AppState) :
    selectTimezone off n2 t (selectTimezone off n1 t s) = selectTimezone off n2 t s
    ∧ (selectTimezone off n2 t (selectTimezone off n1 t s)).selectedTimezone = t := by
  constructor
  · simp only [selectTimezone_eq]
    rw [map_setTz_idem, map_setCore_idem]
  · rw [selectTimezone_eq, selectTimezone_eq]

/-- C6: `refresh()` (the `updateClock` step run by the timer and at startup)
modifies only the time-string and date-string slots: the selected timezone,
the city label and every control's active marking are unchanged. -/
theorem updateClock_frame (off : String → Int) (nowMs : Nat) (s : AppState) :
    (updateClock off nowMs s).selectedTimezone = s.selectedTimezone
    ∧ (updateClock off nowMs s).cityName = s.cityName
    ∧ (updateClock off nowMs s).coreCityButtons = s.coreCityButtons
    ∧ (updateClock off nowMs s).tzButtons = s.tzButtons
    ∧ step off s (Event.tick nowMs) = updateClock off nowMs s :=
  ⟨rfl, rfl, rfl, rfl, rfl⟩

/-- C7: formatting is deterministic at one-second resolution: two evaluations
of the formatter (hence two `refresh()` calls) whose ambient instants fall in
the same clock second produce identical time strings and identical date
strings. -/
theorem format_second_resolution (off : String → Int) (t : String) (n1 n2 : Nat)
    (h : n1 / 1000 = n2 / 1000) (s : AppState) :
    formatForTimezone off t n1 = formatForTimezone off t n2
    ∧ (updateClock off n1 s).clockText = (updateClock off n2 s).clockText
    ∧ (updateClock off n1 s).dateText = (updateClock off n2 s).dateText := by
  have hf : ∀ tz, formatForTimezone off tz n1 = formatForTimezone off tz n2 := by
    intro tz
    unfold formatForTimezone
    rw [h]
  refine ⟨hf t, ?_, ?_⟩
  · show (formatForTimezone off s.selectedTimezone n1).time
      = (formatForTimezone off s.selectedTimezone n2).time
    rw [hf]
  · show (formatForTimezone off s.selectedTimezone n1).date
      = (formatForTimezone off s.selectedTimezone n2).date
    rw [hf]

/-- Witness for C7: the instants 1000ms and 1999ms lie in the same clock
second and format identically in UTC. -/
theorem format_second_resolution_witness :
    (1000 / 1000 = 1999 / 1000)
    ∧ formatForTimezone (fun _ => 0) "UTC" 1000
      = formatForTimezone (fun _ => 0) "UTC" 1999 :=
  ⟨by decide, (format_second_resolution (fun _ => 0) "UTC" 1000 1999 (by decide)
    (initialState [])).1⟩

end WorldClock
